import Mathlib

/-!
# Verification of the retrieval/ranking core

A shallow embedding, in Lean 4, of the retrieval and ranking core of the
rabbi-nachman-voice-assistant repository:

* result fusion and budget selection (`src/routes/query.js`:
  `combineSearchResults`, `selectBestChunks`, and the `POST /ask`
  orchestration),
* the master index builder (`src/services/database.js` /
  `master-index.js`: `MasterIndexService`),
* the semantic chunker (`src/services/chunker.js`: `SemanticChunker`).

JavaScript numbers used as scores are embedded as `ℚ` (every constant in the
source — 0.2, 0.3, 0.5, 0.7, 1.0 — and every sum of them that the theorems
touch is exact in binary floating point, so `ℚ` and IEEE doubles agree on all
statements proved here).  JavaScript string `.length` (UTF-16 units) is
embedded as `String.length` (code points); the two agree on all texts without
astral-plane characters, and no theorem below depends on the difference.
Database tables are embedded as Lean lists of rows, and external effects
(embedding provider, chat completion, SQL round trips) as explicit
`Except`-valued inputs mirroring the `try`/`catch` structure of the source.
-/

namespace RNVA

/-! ## Result fusion (`src/routes/query.js`)

`combineSearchResults` receives the three result streams of `POST /ask`
(`[masterResults, vectorResults, themeResults]`), merges them in a JS `Map`
keyed by chunk id (insertion-ordered; `set` on an existing key replaces the
value in place), and sorts the values by descending score.  Each result row
is embedded by the fields fusion actually reads: `id`, `token_count`,
`score`, plus the `source` provenance tag fusion writes. -/

structure ResultChunk where
  id : Nat
  token_count : Nat
  score : ℚ
  source : String := ""
deriving DecidableEq

/-- Stable insertion step: `x` is placed before the first element `y` with
`le x y`; among elements the comparator ties, original order is kept. -/
def insertBy (le : α → α → Bool) (x : α) : List α → List α
  | [] => [x]
  | y :: ys => if le x y then x :: y :: ys else y :: insertBy le x ys

/-- JS `Array.prototype.sort(comparator)` for a consistent comparator:
a stable comparison sort (modern JS engines guarantee stability).  `le a b`
means the comparator allows `a` before `b`. -/
def stableSortBy (le : α → α → Bool) : List α → List α
  | [] => []
  | x :: xs => insertBy le x (stableSortBy le xs)

/-- JS `Map.set` keyed by `id`: replace in place if the key is present,
otherwise append (JS `Map` iterates in insertion order). -/
def mapSet (m : List ResultChunk) (c : ResultChunk) : List ResultChunk :=
  if m.any (fun x => x.id = c.id) then
    m.map (fun x => if x.id = c.id then c else x)
  else
    m ++ [c]

/-- `combined.get(chunk.id).score += b`: add a boost to the entry with the
given id, leaving everything else unchanged. -/
def mapBoost (m : List ResultChunk) (i : Nat) (b : ℚ) : List ResultChunk :=
  m.map (fun x => if x.id = i then { x with score := x.score + b } else x)

/-- `combineSearchResults` (`src/routes/query.js` lines 260–302): vector
results enter at full weight (`score * 1.0`), master-index results boost an
existing entry by `+0.3` or enter at base `0.7`, theme results boost by
`+0.2` or enter at base `0.5`; finally the union is sorted by descending
score (`(a, b) => b.score - a.score`, a stable sort in JS engines). -/
def combineSearchResults (masterResults vectorResults themeResults : List ResultChunk) :
    List ResultChunk :=
  let combined : List ResultChunk := []
  let combined := vectorResults.foldl
    (fun m c => mapSet m { c with score := c.score * 1, source := "vector" }) combined
  let combined := masterResults.foldl
    (fun m c =>
      if m.any (fun x => x.id = c.id) then mapBoost m c.id 0.3
      else mapSet m { c with score := 0.7, source := "master" }) combined
  let combined := themeResults.foldl
    (fun m c =>
      if m.any (fun x => x.id = c.id) then mapBoost m c.id 0.2
      else mapSet m { c with score := 0.5, source := "theme" }) combined
  stableSortBy (fun a b => decide (b.score ≤ a.score)) combined

/-- `selectBestChunks` (`src/routes/query.js` lines 304–321), the loop body:
a chunk is taken when `totalTokens + chunk.token_count < maxTokens`
(strictly), and the loop breaks as soon as 20 chunks are selected.
`maxTokens` is `parseInt(process.env.MAX_CONTEXT_TOKENS) || 800000`. -/
def selectGo (maxTokens : Nat) : List ResultChunk → Nat → List ResultChunk → List ResultChunk
  | [], _, selected => selected.reverse
  | c :: rest, totalTokens, selected =>
    let taken := totalTokens + c.token_count < maxTokens
    let selected' := if taken then c :: selected else selected
    let totalTokens' := if taken then totalTokens + c.token_count else totalTokens
    if selected'.length ≥ 20 then selected'.reverse
    else selectGo maxTokens rest totalTokens' selected'

/-- `selectBestChunks` (the unused `queryAnalysis` parameter is dropped). -/
def selectBestChunks (results : List ResultChunk) (maxTokens : Nat) : List ResultChunk :=
  selectGo maxTokens results 0 []

/-- Fused score of the entry with a given chunk id, `none` if absent. -/
def fusedScore (l : List ResultChunk) (i : Nat) : Option ℚ :=
  (l.find? (fun c => c.id = i)).map (fun c => c.score)

/-! ## The `POST /ask` retrieval orchestration (`src/routes/query.js` 49–60)

The three streams are awaited with `Promise.all`, so a rejection of any one
of them rejects the whole step and lands in the route's `catch` (HTTP 500).
The master-index streams never reject: every database round trip inside
`MasterIndexService.searchByTerm` / `searchByBook` is wrapped in a
`try`/`catch` that returns `[]`.  `VectorSearchService.search` wraps its body
(embedding call + SQL) in a `try`/`catch` that *re-throws*
`Vector search failed: …` (`src/services/vector-search.js` 106–109).
Database/provider round trips are embedded as `Except`-valued oracles. -/

/-- Outcome of the `master_index` SQL lookup (plus `getChunksByIds`) for one
term and optional index type. -/
def TermDb : Type := String → Option String → Except String (List ResultChunk)

/-- Outcome of the `searchByBook` SQL lookup for one book name. -/
def BookDb : Type := String → Except String (List ResultChunk)

/-- The fields of the query analysis consumed by `MasterIndexService.search`
(`queryAnalysis.key_terms || []` is modelled by an `Option`). -/
structure QueryAnalysis where
  themes : List String
  suspected_books : List String
  key_terms : Option (List String)

namespace MasterIndexService

/-- `deduplicateResults` (`database.js` 687–696): keep the first occurrence
of each chunk id (a `seen` set filter). -/
def deduplicateResults : List ResultChunk → List ResultChunk :=
  go []
where
  go (seen : List Nat) : List ResultChunk → List ResultChunk
    | [] => []
    | r :: rest => if r.id ∈ seen then go seen rest else r :: go (r.id :: seen) rest

/-- `sortByImportance` (`database.js` 698–706): stable sort whose comparator
returns `b.score - a.score` when both scores are truthy (non-zero) and `0`
otherwise. -/
def sortByImportance (results : List ResultChunk) : List ResultChunk :=
  stableSortBy
    (fun a b => if a.score ≠ 0 ∧ b.score ≠ 0 then decide (b.score ≤ a.score) else true)
    results

/-- `searchByTerm` (`database.js` 283–324): the SQL lookup and chunk
materialisation are the oracle `db`; the surrounding `try`/`catch` turns any
failure into zero results. -/
def searchByTerm (db : TermDb) (term : String) (indexType : Option String) :
    List ResultChunk :=
  match db term indexType with
  | .error _ => []
  | .ok rows => rows

/-- `searchByBook` (`database.js` 329–368): same catch-to-empty shape. -/
def searchByBook (db : BookDb) (bookName : String) : List ResultChunk :=
  match db bookName with
  | .error _ => []
  | .ok rows => rows

/-- `MasterIndexService.search` (`database.js` 236–262): theme lookups, then
suspected-book lookups, then key-term lookups; dedupe and sort.  It contains
no `try`/`catch` of its own, but every awaited sub-call catches internally,
so this stream never rejects. -/
def search (db : TermDb) (bookDb : BookDb) (qa : QueryAnalysis) : List ResultChunk :=
  let results := qa.themes.foldl (fun acc t => acc ++ searchByTerm db t (some "theme")) []
  let results := qa.suspected_books.foldl (fun acc b => acc ++ searchByBook bookDb b) results
  let results :=
    (qa.key_terms.getD []).foldl (fun acc t => acc ++ searchByTerm db t (some "concept")) results
  sortByImportance (deduplicateResults results)

/-- `MasterIndexService.searchByThemes` (`database.js` 267–278). -/
def searchByThemes (db : TermDb) (themes : List String) : List ResultChunk :=
  deduplicateResults
    (themes.foldl (fun acc t => acc ++ searchByTerm db t (some "theme")) [])

end MasterIndexService

namespace VectorSearchService

/-- `VectorSearchService.search` (`vector-search.js` 26–110): `outcome` is
the body (embedding call, SQL query, row mapping — whichever step fails
first); the `catch` re-throws with the `Vector search failed: ` prefix
instead of degrading to zero results. -/
def search (outcome : Except String (List ResultChunk)) : Except String (List ResultChunk) :=
  match outcome with
  | .error e => .error ("Vector search failed: " ++ e)
  | .ok rows => .ok rows

end VectorSearchService

/-- The retrieval part of `router.post('/ask')` (`query.js` 49–60):
`Promise.all([masterIndex.search, vectorSearch.search,
masterIndex.searchByThemes])` followed by fusion and budget selection.
`Promise.all` rejects as soon as any stream rejects; only the vector stream
can reject, and the route's `catch` turns that into an error response. -/
def router_ask (db : TermDb) (bookDb : BookDb) (qa : QueryAnalysis)
    (vectorOutcome : Except String (List ResultChunk)) (maxTokens : Nat) :
    Except String (List ResultChunk) :=
  match VectorSearchService.search vectorOutcome with
  | .error e => .error e
  | .ok vectorResults =>
    let masterResults := MasterIndexService.search db bookDb qa
    let themeResults := MasterIndexService.searchByThemes db qa.themes
    .ok (selectBestChunks (combineSearchResults masterResults vectorResults themeResults) maxTokens)

/-! ## Master index builder (`src/services/database.js` / `master-index.js`)

The `master_index` table is embedded as a list of rows in physical order.
`addIndexEntry` issues `INSERT … ON CONFLICT (key_term, index_type) DO
UPDATE`.  PostgreSQL executes that statement only when a unique index or
constraint on `(key_term, index_type)` exists to arbitrate the conflict —
and `createTables` (`database.js` 108–156) creates none: the only index on
those columns, `idx_master_index_key` (lines 153–156), is a plain
`CREATE INDEX`.  Against the shipped schema the statement is therefore
rejected (`there is no unique or exclusion constraint matching the ON
CONFLICT specification`) and `addIndexEntry`'s `catch` re-throws.  The
embedding keeps the schema explicit so that both the actual behaviour and
the upsert the `DO UPDATE` clause *describes* can be stated.
The `cross_references` column is the constant `{}` in every insert the
builder makes and is omitted.  `buildIndexFromChunks` (lines 584–681) runs
`DELETE FROM master_index`, reads all chunks, accumulates theme and keyword
maps (JS `Map`s — insertion-ordered), and issues the inserts one statement
at a time inside a `try` whose `catch` re-throws; no transaction wraps the
sequence, so each state before/after a statement is visible to concurrent
readers, and the run stops at the first failing statement. -/

structure IndexEntry where
  index_type : String
  key_term : String
  hebrew_term : Option String
  related_chunks : List Nat
  book_references : List String
  frequency : Nat
  importance_score : ℚ
deriving DecidableEq

/-- The chunk columns the index builder reads (`exact_reference` and
`hebrew_text` are selected but unused by the builder's body; a SQL `NULL`
themes/keywords array — `if (chunk.themes)` — is the empty list). -/
structure ChunkRow where
  id : Nat
  themes : List String
  keywords : List String
  book_title : String
deriving DecidableEq

namespace MasterIndexService

/-- `calculateImportanceScore` (`database.js` 708–713). -/
def calculateImportanceScore (frequency bookCount : Nat) : ℚ :=
  let frequencyScore := min ((frequency : ℚ) / 10) 1.0
  let distributionScore := min ((bookCount : ℚ) / 5) 1.0
  frequencyScore * 0.7 + distributionScore * 0.3

/-- JS `String.prototype.toLowerCase` on the Basic Latin and Latin-1 ranges
(the ranges the index terms live in): the Unicode simple lowercase mapping
adds 32 to `A`–`Z` and to `À`–`Þ` except `×`. -/
def jsToLowerCase (s : String) : String :=
  ⟨s.data.map (fun c =>
    if ('A' ≤ c ∧ c ≤ 'Z') ∨ (('À' ≤ c ∧ c ≤ 'Þ') ∧ c ≠ '×') then
      Char.ofNat (c.toNat + 32)
    else c)⟩

/-- `extractHebrewEquivalent` (`database.js` 715–729): a fixed
French→Hebrew lookup on the lower-cased term, `null` on a miss. -/
def extractHebrewEquivalent (term : String) : Option String :=
  let t := jsToLowerCase term
  if t = "joie" then some "שמחה"
  else if t = "prière" then some "תפילה"
  else if t = "repentir" then some "תשובה"
  else if t = "foi" then some "אמונה"
  else if t = "méditation" then some "התבודדות"
  else if t = "torah" then some "תורה"
  else if t = "mitzvah" then some "מצוה"
  else if t = "tsaddik" then some "צדיק"
  else none

/-- The part of the `master_index` schema that decides the fate of the
`ON CONFLICT (key_term, index_type)` clause: whether a unique index or
constraint on those columns exists. -/
structure MasterIndexSchema where
  uniqueOnKeyTermIndexType : Bool
deriving DecidableEq

/-- The schema `createTables` (`database.js` 108–156) actually creates:
`idx_master_index_key` is a plain (non-unique) `CREATE INDEX`, and the
table definition carries no `UNIQUE` constraint on
`(key_term, index_type)`. -/
def createTablesSchema : MasterIndexSchema := { uniqueOnKeyTermIndexType := false }

/-- The schema the `ON CONFLICT` clause presumes (a unique index on
`(key_term, index_type)`) — *not* what `createTables` creates.  Used to
state the upsert semantics the statement describes. -/
def intendedSchema : MasterIndexSchema := { uniqueOnKeyTermIndexType := true }

/-- PostgreSQL's error for `ON CONFLICT` without a matching arbiter. -/
def onConflictError : String :=
  "there is no unique or exclusion constraint matching the ON CONFLICT specification"

/-- The table change the `DO UPDATE` clause of `addIndexEntry`
(`database.js` 546–579) describes *when its arbiter index exists*: replace
the conflicting row in place, otherwise append the new row. -/
def upsertEntry (table : List IndexEntry) (e : IndexEntry) : List IndexEntry :=
  if table.any (fun x => x.key_term = e.key_term ∧ x.index_type = e.index_type) then
    table.map (fun x =>
      if x.key_term = e.key_term ∧ x.index_type = e.index_type then e else x)
  else table ++ [e]

/-- `addIndexEntry` (`database.js` 546–579) as executed against a given
schema: with a unique arbiter index the statement performs the upsert;
without one PostgreSQL rejects it and the `catch` re-throws the error. -/
def addIndexEntry (schema : MasterIndexSchema) (table : List IndexEntry)
    (e : IndexEntry) : Except String (List IndexEntry) :=
  if schema.uniqueOnKeyTermIndexType then .ok (upsertEntry table e)
  else .error onConflictError

/-- The per-term accumulator of the theme/keyword maps (`chunks`, a JS
`Set()` of book titles — insertion-ordered and deduplicated — and
`frequency`). -/
structure TermData where
  chunks : List Nat
  books : List String
  frequency : Nat
deriving DecidableEq

/-- JS `Set.add`. -/
def addBook (books : List String) (b : String) : List String :=
  if b ∈ books then books else books ++ [b]

/-- One iteration of `for (const theme of chunk.themes)` (and the identical
keyword loop): create the map entry if missing, then push the chunk id, add
the book title, and increment the frequency. -/
def bumpTerm (m : List (String × TermData)) (t : String) (c : ChunkRow) :
    List (String × TermData) :=
  let m := if m.any (fun p => p.1 = t) then m else m ++ [(t, ⟨[], [], 0⟩)]
  m.map (fun p =>
    if p.1 = t then
      (t, ⟨p.2.chunks ++ [c.id], addBook p.2.books c.book_title, p.2.frequency + 1⟩)
    else p)

/-- The theme map (with `ChunkRow.themes`) or keyword map (with
`ChunkRow.keywords`) accumulated over all chunks. -/
def buildTermMap (getTerms : ChunkRow → List String) (chunks : List ChunkRow) :
    List (String × TermData) :=
  chunks.foldl (fun m c => (getTerms c).foldl (fun m t => bumpTerm m t c) m) []

/-- The `addIndexEntry` payload built for each map entry
(`database.js` 648–673). -/
def entriesFromMap (ty : String) (m : List (String × TermData)) : List IndexEntry :=
  m.map (fun p =>
    { index_type := ty
      key_term := p.1
      hebrew_term := extractHebrewEquivalent p.1
      related_chunks := p.2.chunks
      book_references := p.2.books
      frequency := p.2.frequency
      importance_score := calculateImportanceScore p.2.frequency p.2.books.length })

/-- One SQL statement issued by `buildIndexFromChunks`. -/
inductive MasterIndexOp where
  | clearIndex
  | insertEntry (e : IndexEntry)

/-- All entries the rebuild derives from the chunk set: the theme entries,
then the keyword (`concept`) entries, in map insertion order. -/
def indexEntries (chunks : List ChunkRow) : List IndexEntry :=
  entriesFromMap "theme" (buildTermMap ChunkRow.themes chunks) ++
    entriesFromMap "concept" (buildTermMap ChunkRow.keywords chunks)

/-- The statement sequence of `buildIndexFromChunks`: the `DELETE`, then one
insert per derived entry. -/
def buildIndexOps (chunks : List ChunkRow) : List MasterIndexOp :=
  .clearIndex :: (indexEntries chunks).map .insertEntry

/-- Execute one statement: the `DELETE` always succeeds, an insert behaves
per `addIndexEntry`. -/
def applyOp (schema : MasterIndexSchema) (table : List IndexEntry) :
    MasterIndexOp → Except String (List IndexEntry)
  | .clearIndex => .ok []
  | .insertEntry e => addIndexEntry schema table e

/-- Run the statements in order, stopping at the first error (the `await`
inside the loop throws, the surrounding `catch` re-throws).  Returns the
table states a concurrent reader can observe — the state before each
executed statement and the state the run ends in — together with the
outcome. -/
def runOps (schema : MasterIndexSchema) :
    List MasterIndexOp → List IndexEntry →
      List (List IndexEntry) × Except String (List IndexEntry)
  | [], t => ([t], .ok t)
  | op :: ops, t =>
    match applyOp schema t op with
    | .error e => ([t], .error e)
    | .ok t' =>
      let r := runOps schema ops t'
      (t :: r.1, r.2)

/-- `buildIndexFromChunks` run from a prior index state: the final outcome. -/
def buildIndexFromChunks (schema : MasterIndexSchema) (table : List IndexEntry)
    (chunks : List ChunkRow) : Except String (List IndexEntry) :=
  (runOps schema (buildIndexOps chunks) table).2

/-- Every index state visible to a concurrent reader while
`buildIndexFromChunks` runs (an interrupted rebuild stops at one of them). -/
def buildIndexStates (schema : MasterIndexSchema) (table : List IndexEntry)
    (chunks : List ChunkRow) : List (List IndexEntry) :=
  (runOps schema (buildIndexOps chunks) table).1

def entryKey (e : IndexEntry) : String × String := (e.key_term, e.index_type)

end MasterIndexService

/-! ## Semantic chunker (`src/services/chunker.js`)

Strings are processed at the character level, mirroring the JS regexes the
source uses.  `logger` calls are recorded in a returned log list.  The
chunk's random `uuidv4()` id and the `created_at` timestamp are
nondeterministic environment reads and are omitted from the embedded
`Chunk`; the `metadata` map's only non-constant entry,
`is_complete_section`, is kept as a field (its other entries copy
`book_metadata` verbatim). -/

/-- The JS regex class `\s` (ECMAScript WhiteSpace ∪ LineTerminator). -/
def jsIsWs (c : Char) : Bool :=
  c = ' ' ∨ c = '\t' ∨ c = '\n' ∨ c = '\r' ∨ c = '\x0b' ∨ c = '\x0c' ∨
  c = ' ' ∨ c = ' ' ∨ (' ' ≤ c ∧ c ≤ ' ') ∨ c = ' ' ∨
  c = ' ' ∨ c = ' ' ∨ c = ' ' ∨ c = '　' ∨ c = '﻿'

/-- JS `s.trim()` (drops `\s` characters from both ends). -/
def jsTrim (s : String) : String :=
  ⟨((s.data.dropWhile jsIsWs).reverse.dropWhile jsIsWs).reverse⟩

/-- A JS value that is either a string or an array of strings (the shapes
`section.he` / `section.text` take in the ingest payload). -/
inductive JsText where
  | str (s : String)
  | arr (l : List String)
deriving DecidableEq

/-- JS truthiness of such a value: every array is truthy, a string is truthy
iff nonempty. -/
def jsTruthy : JsText → Bool
  | .str s => s ≠ ""
  | .arr _ => true

/-- JS `arr.slice(-k)` for a nonnegative integer `k`: the last `k` elements
— except `k = 0`, where `slice(-0)` is `slice(0)`, the whole array. -/
def jsSliceNeg (l : List α) (k : Nat) : List α :=
  if k = 0 then l else l.drop (l.length - k)

/-- Log lines produced through `logger`. -/
inductive LogLevel where
  | info
  | debug
  | warn
deriving DecidableEq

structure Log where
  level : LogLevel
  msg : String
deriving DecidableEq

namespace SemanticChunker

/-- Constructor configuration: `parseInt(process.env.CHUNK_SIZE) || 10000`
and `parseInt(process.env.OVERLAP_PERCENTAGE) || 15`.  (The constructor also
computes `this.maxChunkSize = this.chunkSize * 1.2`, but no method reads
it.) -/
structure Config where
  chunkSize : Nat := 10000
  overlapPercentage : Nat := 15

def defaultConfig : Config := {}

/-- `estimateTokenCount`: `Math.ceil(text.length / 4)`. -/
def estimateTokenCount (text : String) : Nat := (text.length + 3) / 4

/-- `combineTexts(hebrew, english)` (`chunker.js` 389–407): join array
values with spaces, separate the two languages with a blank line. -/
def combineTexts (hebrew english : JsText) : String :=
  let combined :=
    match hebrew with
    | .arr l => if l.length > 0 then String.intercalate " " l else ""
    | .str s => s
  match english with
  | .arr l =>
    if l.length > 0 then
      (if combined ≠ "" then combined ++ "\n\n" else combined) ++ String.intercalate " " l
    else combined
  | .str s => (if combined ≠ "" then combined ++ "\n\n" else combined) ++ s

/-- JS `text.split(re)` where `re` is a character class with `+`
(`/[...]+/`, and `/\s+/` likewise): one maximal run of class characters is
one separator.  `inSep` records whether the previous character belonged to
the current separator run.  As in JS, a leading or trailing separator
yields an empty piece and `"".split(re)` is `[""]`. -/
def splitClass (p : Char → Bool) : List Char → Bool → List Char → List (List Char)
  | [], _, acc => [acc.reverse]
  | c :: rest, inSep, acc =>
    if p c then
      if inSep then splitClass p rest true acc
      else acc.reverse :: splitClass p rest true []
    else splitClass p rest false (c :: acc)

/-- Index of the last `'\n'` in a character list, if any. -/
def lastNewlineIdx (l : List Char) : Option Nat :=
  match l.reverse.findIdx? (fun c => c = '\n') with
  | none => none
  | some k => some (l.length - 1 - k)

/-- Splitter of the JS regex `/\n\s*\n/` (used by `splitIntoParagraphs`):
on each `'\n'`, the greedy-with-backtracking `\s*` extends to the last
`'\n'` inside the following whitespace run; if the run has no further
newline there is no match at this position and the character is content.
The `fuel` argument only bounds the recursion (each step consumes at least
one character, so `length + 1` is enough); it keeps the definition
structurally recursive. -/
def ppGo : Nat → List Char → List Char → List (List Char)
  | 0, _, acc => [acc.reverse]
  | fuel + 1, cs, acc =>
    match cs with
    | [] => [acc.reverse]
    | '\n' :: rest =>
      match lastNewlineIdx (rest.takeWhile jsIsWs) with
      | some j => acc.reverse :: ppGo fuel (rest.drop (j + 1)) []
      | none => ppGo fuel rest ('\n' :: acc)
    | c :: rest => ppGo fuel rest (c :: acc)

/-- `splitIntoParagraphs` (`chunker.js` 429–431):
`text.split(/\n\s*\n/).filter(p => p.trim().length > 0)`. -/
def splitIntoParagraphs (text : String) : List String :=
  ((ppGo (text.data.length + 1) text.data []).map (fun l => String.mk l)).filter
    (fun p => 0 < (jsTrim p).length)

/-- The sentence-terminator class `[.!?׃׀]` (Latin enders plus sof pasuq and
paseq). -/
def isSentenceEnder (c : Char) : Bool :=
  c = '.' ∨ c = '!' ∨ c = '?' ∨ c = '׃' ∨ c = '׀'

/-- `splitIntoSentences` (`chunker.js` 433–436):
`text.split(/[.!?׃׀]+/).filter(s => s.trim().length > 0)`. -/
def splitIntoSentences (text : String) : List String :=
  ((splitClass isSentenceEnder text.data false []).map (fun l => String.mk l)).filter
    (fun s => 0 < (jsTrim s).length)

/-- JS `content.split(/\s+/)`. -/
def jsSplitWs (s : String) : List String :=
  (splitClass jsIsWs s.data false []).map (fun l => String.mk l)

/-- The character class of `/[֐-׿‏‎\s]+/g`. -/
def isHebrewMatchChar (c : Char) : Bool :=
  ('֐' ≤ c ∧ c ≤ '׿') ∨ c = '‏' ∨ c = '‎' ∨ jsIsWs c

/-- Maximal runs of characters satisfying `p` (the matches of a global
`/[...]+/g` regex, in order).  `cur` is the current run, reversed; `inRun`
tells whether the previous character extended it. -/
def runsGo (p : Char → Bool) : List Char → Bool → List Char → List (List Char)
  | [], inRun, cur => if inRun then [cur.reverse] else []
  | c :: rest, inRun, cur =>
    if p c then runsGo p rest true (c :: cur)
    else if inRun then cur.reverse :: runsGo p rest false []
    else runsGo p rest false []

/-- The (maximal) matches of `/[֐-׿‏‎\s]+/g` on the content. -/
def hebrewRuns (l : List Char) : List (List Char) :=
  runsGo isHebrewMatchChar l false []

/-- The regex-fallback branch of `extractHebrewFromContent`:
`content.match(...)` is `null` when there is no match, else the matches
joined with spaces and trimmed. -/
def hebrewFallback (content : String) : Option String :=
  let ms := hebrewRuns content.data
  if ms ≠ [] then some (jsTrim (String.intercalate " " (ms.map (fun l => String.mk l))))
  else none

/-- `extractHebrewFromContent(content, originalHebrew)` (`chunker.js`
409–427); `originalHebrew` is `undefined` (`none`) when `createChunk` is
called without a `hebrew_text` key. -/
def extractHebrewFromContent (content : String) (originalHebrew : Option JsText) :
    Option String :=
  match originalHebrew with
  | some h =>
    if jsTruthy h then
      some (match h with
            | .arr l => String.intercalate " " l
            | .str s => s)
    else hebrewFallback content
  | none => hebrewFallback content

/-- The JSON object the analysis prompt asks the model for; each field may
be missing (`analysis.themes || []`). -/
structure AnalysisRaw where
  themes : Option (List String)
  keywords : Option (List String)
  hebrew_concepts : Option (List String)

structure AnalysisResult where
  themes : List String
  keywords : List String
  hebrew_concepts : List String
deriving DecidableEq

/-- External AI behaviour: the outcomes of the two chat-completion calls
`createChunk` makes, as functions of the arguments the source passes
(`.error` covers a failed call and an unparsable JSON response alike, since
`JSON.parse` runs inside the same `try`). -/
structure AIOracle where
  analyze : String → String → Except String AnalysisRaw
  summarize : String → String → Except String String

/-- `analyzeChunkContent` (`chunker.js` 319–356): on any failure, fall back
to empty theme/keyword lists and log a warning. -/
def analyzeChunkContent (ai : AIOracle) (content bookTitle : String) :
    AnalysisResult × List Log :=
  match ai.analyze content bookTitle with
  | .ok a => (⟨a.themes.getD [], a.keywords.getD [], a.hebrew_concepts.getD []⟩, [])
  | .error e => (⟨[], [], []⟩, [⟨.warn, "Chunk analysis failed, using fallback: " ++ e⟩])

/-- `generateChunkSummary` (`chunker.js` 361–383): on any failure, fall back
to `Enseignement de ${sectionTitle}` and log a warning; a successful
response is trimmed. -/
def generateChunkSummary (ai : AIOracle) (content sectionTitle : String) :
    String × List Log :=
  match ai.summarize content sectionTitle with
  | .ok resp => (jsTrim resp, [])
  | .error e =>
    ("Enseignement de " ++ sectionTitle, [⟨.warn, "Summary generation failed: " ++ e⟩])

structure BookMetadata where
  id : Nat
  title : String
  hebrew_title : String
  category : String
  extraction_method : String
deriving DecidableEq

/-- The parameter object of `createChunk`. (`english_text` is destructured
by the source but never used.) -/
structure CreateChunkParams where
  content : String
  hebrew_text : Option JsText := none
  section_title : String
  exact_reference : String
  chunk_index : Nat
  section_index : Nat
  book_metadata : BookMetadata
  token_count : Nat
  is_complete_section : Bool

structure Chunk where
  book_id : Nat
  chunk_index : Nat
  content : String
  hebrew_text : Option String
  exact_reference : String
  section_title : String
  paragraph_number : Nat
  token_count : Nat
  chunk_summary : String
  themes : List String
  keywords : List String
  is_complete_section : Bool
deriving DecidableEq

/-- `createChunk` (`chunker.js` 272–314).  `token_count ||
this.estimateTokenCount(content)`: a zero (falsy) count is recomputed.
`analysis.themes || []` is already guaranteed a list by
`analyzeChunkContent`'s own defaulting. -/
def createChunk (ai : AIOracle) (p : CreateChunkParams) : Chunk × List Log :=
  let al := analyzeChunkContent ai p.content p.book_metadata.title
  let sl := generateChunkSummary ai p.content p.section_title
  ({ book_id := p.book_metadata.id
     chunk_index := p.chunk_index
     content := p.content
     hebrew_text := extractHebrewFromContent p.content p.hebrew_text
     exact_reference := p.exact_reference
     section_title := p.section_title
     paragraph_number := p.section_index + 1
     token_count := if p.token_count = 0 then estimateTokenCount p.content else p.token_count
     chunk_summary := sl.1
     themes := al.1.themes
     keywords := al.1.keywords
     is_complete_section := p.is_complete_section }, al.2 ++ sl.2)

/-- A section as produced by `extractSections`: title, the two language
texts, and the section reference. -/
structure Section where
  title : String
  hebrew_text : JsText
  english_text : JsText
  reference : String

/-- The mutable state of `intelligentSplit`'s loops. -/
structure SplitState where
  chunks : List Chunk
  logs : List Log
  currentChunk : String
  currentTokens : Nat
  chunkIndex : Nat

/-- The repeated flush block of `intelligentSplit`: push
`createChunk({content: currentChunk.trim(), …, exact_reference:
reference:chunkIndex+1, token_count: currentTokens})`, then reset the buffer
and advance `chunkIndex`. -/
def flushChunk (ai : AIOracle) (sec : Section) (meta : BookMetadata)
    (sectionIndex : Nat) (st : SplitState) : SplitState :=
  let cl := createChunk ai
    { content := jsTrim st.currentChunk
      section_title := sec.title
      exact_reference := sec.reference ++ ":" ++ toString (st.chunkIndex + 1)
      chunk_index := st.chunkIndex
      section_index := sectionIndex
      book_metadata := meta
      token_count := st.currentTokens
      is_complete_section := false }
  { chunks := st.chunks ++ [cl.1]
    logs := st.logs ++ cl.2
    currentChunk := ""
    currentTokens := 0
    chunkIndex := st.chunkIndex + 1 }

/-- The sentence loop body (`chunker.js` 202–225). -/
def sentenceStep (cfg : Config) (ai : AIOracle) (sec : Section) (meta : BookMetadata)
    (sectionIndex : Nat) (st : SplitState) (sentence : String) : SplitState :=
  let sentenceTokens := estimateTokenCount sentence
  if st.currentTokens + sentenceTokens > cfg.chunkSize ∧ jsTrim st.currentChunk ≠ "" then
    let st := flushChunk ai sec meta sectionIndex st
    { st with currentChunk := sentence, currentTokens := sentenceTokens }
  else
    { st with
      currentChunk := st.currentChunk ++ (if st.currentChunk ≠ "" then " " else "") ++ sentence
      currentTokens := st.currentTokens + sentenceTokens }

/-- The paragraph loop body (`chunker.js` 176–250): an oversized paragraph
first flushes the buffer, then runs the sentence loop; otherwise the
paragraph is flushed-or-accumulated exactly like a sentence, with `"\n\n"`
as the joiner. -/
def paragraphStep (cfg : Config) (ai : AIOracle) (sec : Section) (meta : BookMetadata)
    (sectionIndex : Nat) (st : SplitState) (paragraph : String) : SplitState :=
  let paragraphTokens := estimateTokenCount paragraph
  if paragraphTokens > cfg.chunkSize then
    let st := if jsTrim st.currentChunk ≠ "" then flushChunk ai sec meta sectionIndex st else st
    (splitIntoSentences paragraph).foldl (sentenceStep cfg ai sec meta sectionIndex) st
  else
    if st.currentTokens + paragraphTokens > cfg.chunkSize ∧ jsTrim st.currentChunk ≠ "" then
      let st := flushChunk ai sec meta sectionIndex st
      { st with currentChunk := paragraph, currentTokens := paragraphTokens }
    else
      { st with
        currentChunk :=
          st.currentChunk ++ (if st.currentChunk ≠ "" then "\n\n" else "") ++ paragraph
        currentTokens := st.currentTokens + paragraphTokens }

/-- `intelligentSplit` (`chunker.js` 166–267). -/
def intelligentSplit (cfg : Config) (ai : AIOracle) (fullText : String) (sec : Section)
    (meta : BookMetadata) (sectionIndex : Nat) : List Chunk × List Log :=
  let st : SplitState := ⟨[], [], "", 0, 0⟩
  let st := (splitIntoParagraphs fullText).foldl (paragraphStep cfg ai sec meta sectionIndex) st
  let st := if jsTrim st.currentChunk ≠ "" then flushChunk ai sec meta sectionIndex st else st
  (st.chunks, st.logs)

/-- `chunkSection` (`chunker.js` 119–161): skip-and-warn on an
empty/whitespace section, a single complete-section chunk when the estimate
fits `chunkSize`, otherwise `intelligentSplit`. -/
def chunkSection (cfg : Config) (ai : AIOracle) (sec : Section) (meta : BookMetadata)
    (sectionIndex : Nat) : List Chunk × List Log :=
  let fullText := combineTexts sec.hebrew_text sec.english_text
  if jsTrim fullText = "" then
    ([], [⟨.warn, "Empty section " ++ toString sectionIndex ++ " in " ++ meta.title⟩])
  else
    let tokenCount := estimateTokenCount fullText
    if tokenCount ≤ cfg.chunkSize then
      let cl := createChunk ai
        { content := fullText
          hebrew_text := some sec.hebrew_text
          section_title := sec.title
          exact_reference := sec.reference
          chunk_index := 0
          section_index := sectionIndex
          book_metadata := meta
          token_count := tokenCount
          is_complete_section := true }
      ([cl.1], cl.2)
    else
      intelligentSplit cfg ai fullText sec meta sectionIndex

/-- The trailing words chunk `i` donates: `overlapTokens =
Math.floor(chunkSize * (overlapPercentage / 100))`, then
`currentWords.slice(-Math.floor(overlapTokens / 4))`.  The JS float
`Math.floor` is modelled by integer division.  At every configuration a
theorem below instantiates — `(10000, 15)`, `(80, 15)`, `(20, 15)`,
`(8, 15)` — the two computations agree exactly (`1500`, `12`, `3`, `1`
respectively, checked against double rounding).  In general, for integer
`chunkSize`/`overlapPercentage` the float result can fall below the
integer one by at most 1 (only when `chunkSize·overlapPercentage` is an
exact multiple of 100 whose float product rounds down, e.g. `400·29`) and
never exceeds it, so the *upper bounds* proved below on the overlap length
also bound the JS behaviour; exact-value statements are therefore only
made at the configurations listed above. -/
def overlapWords (cfg : Config) (content : String) : List String :=
  let overlapTokens := cfg.chunkSize * cfg.overlapPercentage / 100
  jsSliceNeg (jsSplitWs content) (overlapTokens / 4)

/-- One iteration of `addOverlapBetweenChunks`: prepend the donor's trailing
words (joined with single spaces) to the receiver's content and add their
count to its `token_count` — applied only when the word list is nonempty. -/
def receiveOverlap (cfg : Config) (c d : Chunk) : Chunk :=
  let ws := overlapWords cfg c.content
  if ws.length > 0 then
    { d with
      content := String.intercalate " " ws ++ " " ++ d.content
      token_count := d.token_count + ws.length }
  else d

/-- The loop of `addOverlapBetweenChunks` (`chunker.js` 443–459): iteration
`i` reads chunk `i` — already updated by iteration `i-1` — and mutates
chunk `i+1` in place. -/
def addOverlapGo (cfg : Config) : Chunk → List Chunk → List Chunk
  | c, [] => [c]
  | c, d :: rest => c :: addOverlapGo cfg (receiveOverlap cfg c d) rest

def addOverlapBetweenChunks (cfg : Config) : List Chunk → List Chunk
  | [] => []
  | c :: rest => addOverlapGo cfg c rest

/-- One iteration of `chunkBook`'s section loop (`chunker.js` 26–32): log
the progress line, chunk the section, append chunks and logs. -/
def bookStep (cfg : Config) (ai : AIOracle) (meta : BookMetadata) (total : Nat)
    (acc : List Chunk × List Log) (p : Nat × Section) : List Chunk × List Log :=
  let dbg : Log := ⟨.debug,
    "Processing section " ++ toString (p.1 + 1) ++ "/" ++ toString total ++
      ": " ++ p.2.title⟩
  let cl := chunkSection cfg ai p.2 meta p.1
  (acc.1 ++ cl.1, acc.2 ++ [dbg] ++ cl.2)

/-- The body of `chunkBook` (`chunker.js` 20–40) after `extractSections`:
chunk each section in order, then add overlap between adjacent chunks
(across the whole book). -/
def chunkBook (cfg : Config) (ai : AIOracle) (sections : List Section)
    (meta : BookMetadata) : List Chunk × List Log :=
  let start : List Chunk × List Log :=
    ([], [⟨.info, "📚 Starting semantic chunking for " ++ meta.title⟩])
  let acc := sections.enum.foldl (bookStep cfg ai meta sections.length) start
  let chunks := addOverlapBetweenChunks cfg acc.1
  (chunks,
   acc.2 ++ [⟨.info, "✅ Chunking complete: " ++ toString chunks.length ++
     " chunks created for " ++ meta.title⟩])

end SemanticChunker

/-! ## Statement helpers and concrete scenario inputs -/

/-- Total token estimate of a selection. -/
def sumTokens (l : List ResultChunk) : Nat := (l.map ResultChunk.token_count).sum

/-- Chunk A of the spec §8 fusion scenario: 200 tokens, similarity 0.9. -/
def chunkA : ResultChunk := { id := 1, token_count := 200, score := 0.9 }

/-- Chunk B of the spec §8 fusion scenario: 150 tokens, similarity 0.6, also
present in the theme-search stream. -/
def chunkB : ResultChunk := { id := 2, token_count := 150, score := 0.6 }

/-- A chunk whose similarity score is 0.1 (below the 0.4 crossover). -/
def probeChunk : ResultChunk := { id := 1, token_count := 50, score := 0.1 }

/-- A master-index result row, available while the vector stream fails. -/
def masterRowChunk : ResultChunk := { id := 3, token_count := 100, score := 0.7 }

/-- A term database that finds `masterRowChunk` for every term. -/
def termDbOk : TermDb := fun _ _ => .ok [masterRowChunk]

def bookDbOk : BookDb := fun _ => .ok []

def qaJoy : QueryAnalysis := { themes := ["joie"], suspected_books := [], key_terms := none }

namespace MasterIndexService

/-- At most one row per `(key_term, index_type)` pair. -/
def KeysDistinct (l : List IndexEntry) : Prop :=
  List.Pairwise (fun a b => entryKey a ≠ entryKey b) l

/-- A pre-existing index row, present before a rebuild. -/
def staleEntry : IndexEntry :=
  { index_type := "theme", key_term := "ancien", hebrew_term := none,
    related_chunks := [9], book_references := ["Vieux Livre"], frequency := 3,
    importance_score := 0.5 }

/-- A chunk row carrying one theme. -/
def joyChunkRow : ChunkRow :=
  { id := 1, themes := ["joie"], keywords := [], book_title := "Likutei Moharan" }

end MasterIndexService

namespace SemanticChunker

/-- Invariant of `intelligentSplit`'s state: all emitted chunks fit the
budget, and the buffer is either empty with zero tokens or trim-nonempty
with a positive token total within budget. -/
def StInv (N : Nat) (st : SplitState) : Prop :=
  (∀ c ∈ st.chunks, c.token_count ≤ N) ∧
  ((st.currentChunk = "" ∧ st.currentTokens = 0) ∨
    (jsTrim st.currentChunk ≠ "" ∧ 1 ≤ st.currentTokens ∧ st.currentTokens ≤ N))

/-- Does some nonempty suffix of `a` reappear verbatim (character for
character) as a prefix of `b`?  This is the character-level overlap
invariant claimed by the spec. -/
def hasVerbatimOverlap (a b : String) : Bool :=
  (List.range (min a.data.length b.data.length)).any (fun i =>
    a.data.drop (a.data.length - (i + 1)) == b.data.take (i + 1))

/-- Book metadata used by the concrete chunker scenarios. -/
def metaSample : BookMetadata :=
  { id := 1, title := "Likutei Moharan", hebrew_title := "ליקוטי מוהרן",
    category := "Chassidut", extraction_method := "api" }

/-- An AI oracle whose two calls always succeed (with empty lists and a
fixed summary). -/
def aiOkEmpty : AIOracle :=
  { analyze := fun _ _ => .ok ⟨some [], some [], some []⟩
    summarize := fun _ _ => .ok "Un résumé." }

/-- An AI oracle whose two calls always fail. -/
def aiFail : AIOracle :=
  { analyze := fun _ _ => .error "provider timeout"
    summarize := fun _ _ => .error "provider timeout" }

/-- Concrete `createChunk` parameters for the C10 witness. -/
def sampleParams : CreateChunkParams :=
  { content := "Il est une grande mitsva d'être toujours joyeux."
    section_title := "Torah 24"
    exact_reference := "Likutei Moharan 24:1"
    chunk_index := 0
    section_index := 0
    book_metadata := metaSample
    token_count := 13
    is_complete_section := true }

/-- A chunker configured with `CHUNK_SIZE=80` (and the default 15% overlap). -/
def cfg80 : Config := { chunkSize := 80, overlapPercentage := 15 }

/-- A chunker configured with `CHUNK_SIZE=8` (and the default 15% overlap). -/
def cfg8 : Config := { chunkSize := 8, overlapPercentage := 15 }

/-- A chunker configured with `CHUNK_SIZE=20` (and the default 15% overlap):
`overlapTokens = ⌊20·0.15⌋ = 3` (exactly 3 in floats too) and
`⌊3/4⌋ = 0`, so `slice(-0)` takes the donor's *entire* word list. -/
def cfg20 : Config := { chunkSize := 20, overlapPercentage := 15 }

/-- Forty one-letter words (79 characters, 20 tokens). -/
def manyWords : String := String.intercalate " " (List.replicate 40 "a")

/-- A section with two paragraphs — `manyWords` (20 tokens) and `"b b b"`
(2 tokens) — whose sentences all fit `cfg20`'s budget, yet whose second
chunk receives the whole first chunk as overlap under `cfg20`. -/
def sec20 : Section :=
  { title := "T", hebrew_text := .arr [],
    english_text := .str (manyWords ++ "\n\n" ++ "b b b"), reference := "Ref 3" }

/-- The third paragraph of the overlap scenario: one 312-character word
(78 tokens). -/
def p3content : String := String.mk (List.replicate 312 'c')

/-- A section whose text has three paragraphs — `"aa bb"` (2 tokens),
`"zz"` (1 token), and `p3content` (78 tokens) — so that under `cfg80` the
first chunk is `"aa bb\n\nzz"` (with an interior paragraph separator inside
the overlap window) and the second is `p3content`. -/
def overlapSection : Section :=
  { title := "T", hebrew_text := .arr [],
    english_text := .str ("aa bb\n\nzz\n\n" ++ p3content), reference := "Ref 1" }

/-- A 40-character single "sentence" (no sentence terminator): 10 tokens,
which exceeds `cfg8`'s budget of 8 and even the 20% tolerance `9.6`. -/
def hugeSentence : String := String.mk (List.replicate 40 'c')

/-- A section holding only `hugeSentence`. -/
def hugeSentenceSection : Section :=
  { title := "T", hebrew_text := .arr [],
    english_text := .str hugeSentence, reference := "Ref 2" }

/-- Two small chunks used to instantiate the overlap theorems. -/
def chunkW1 : Chunk :=
  { book_id := 1, chunk_index := 0, content := "alpha beta", hebrew_text := none,
    exact_reference := "r:1", section_title := "T", paragraph_number := 1,
    token_count := 3, chunk_summary := "s", themes := [], keywords := [],
    is_complete_section := false }

def chunkW2 : Chunk :=
  { book_id := 1, chunk_index := 1, content := "gamma", hebrew_text := none,
    exact_reference := "r:2", section_title := "T", paragraph_number := 1,
    token_count := 2, chunk_summary := "s", themes := [], keywords := [],
    is_complete_section := false }

end SemanticChunker

/-! # Theorems -/

/-! ## Result fusion and budget selection -/

/-- Budget-selection invariant of `selectGo`: if the accumulator's token sum
is the running total, the total is within budget, and fewer than 20 chunks
are selected, then the final selection is within budget and the 20-chunk
cap. -/
theorem selectGo_spec (maxT : Nat) :
    ∀ (rest : List ResultChunk) (total : Nat) (acc : List ResultChunk),
      sumTokens acc = total → total ≤ maxT → acc.length < 20 →
      sumTokens (selectGo maxT rest total acc) ≤ maxT ∧
        (selectGo maxT rest total acc).length ≤ 20 := by
  intro rest
  induction rest with
  | nil =>
    intro total acc hsum hle hlen
    simp only [selectGo]
    refine ⟨?_, ?_⟩
    · simp only [sumTokens, List.map_reverse, List.sum_reverse] at *
      rw [hsum]; exact hle
    · simp only [List.length_reverse]; omega
  | cons c rest ih =>
    intro total acc hsum hle hlen
    simp only [selectGo]
    by_cases htake : total + c.token_count < maxT
    · simp only [htake, if_true]
      by_cases h20 : (c :: acc).length ≥ 20
      · simp only [h20, if_true]
        refine ⟨?_, ?_⟩
        · simp only [sumTokens, List.map_reverse, List.sum_reverse, List.map_cons,
            List.sum_cons] at *
          omega
        · simp only [List.length_reverse, List.length_cons]; omega
      · simp only [h20, if_false]
        exact ih (total + c.token_count) (c :: acc)
          (by simp only [sumTokens, List.map_cons, List.sum_cons] at *; omega)
          (Nat.le_of_lt htake)
          (by simp only [List.length_cons] at *; omega)
    · simp only [htake, if_false]
      have h20 : ¬ acc.length ≥ 20 := by omega
      simp only [h20, if_false]
      exact ih total acc hsum hle hlen

/-- **C3** (confirmed).  For every fused candidate list and every configured
token budget, the selection returned by `selectBestChunks` has a token-count
sum that does not exceed the budget, and at most 20 chunks. -/
theorem C3_selection_within_budget_and_cap (results : List ResultChunk) (maxTokens : Nat) :
    sumTokens (selectBestChunks results maxTokens) ≤ maxTokens ∧
      (selectBestChunks results maxTokens).length ≤ 20 :=
  selectGo_spec maxTokens results 0 [] rfl (Nat.zero_le _) (by simp)

/-- **C2** (counterexample).  On the spec §8 scenario input — chunk A
(200 tokens, similarity 0.9) and chunk B (150 tokens, similarity 0.6, also
in theme search), budget 300, max 20 chunks — budget selection returns only
chunk A, not both A and B: selecting B would raise the running total to
350, and `200 + 150 < 300` fails. -/
theorem C2_budget_excludes_chunkB :
    selectBestChunks (combineSearchResults [] [chunkA, chunkB] [chunkB]) 300 =
      [{ id := 1, token_count := 200, score := 0.9, source := "vector" }] := by
  norm_num [combineSearchResults, mapSet, mapBoost, stableSortBy, insertBy, chunkA, chunkB,
    selectBestChunks, selectGo]

/-- **C2** (corrected).  On the §8 scenario input, fusion gives B the fused
score `0.6 + 0.2 = 0.8` and orders A (0.9) before B (0.8) as the claim
states, but budget selection then returns only A: B's 150 tokens on top of
A's 200 would exceed the 300-token budget. -/
theorem C2_amended_scenario :
    combineSearchResults [] [chunkA, chunkB] [chunkB] =
      [{ id := 1, token_count := 200, score := 0.9, source := "vector" },
       { id := 2, token_count := 150, score := 0.8, source := "vector" }] ∧
    (0.8 : ℚ) = 0.6 + 0.2 ∧
    selectBestChunks (combineSearchResults [] [chunkA, chunkB] [chunkB]) 300 =
      [{ id := 1, token_count := 200, score := 0.9, source := "vector" }] ∧
    200 + 150 > 300 := by
  refine ⟨?_, by norm_num, ?_, by norm_num⟩ <;>
    norm_num [combineSearchResults, mapSet, mapBoost, stableSortBy, insertBy, chunkA, chunkB,
      selectBestChunks, selectGo]

/-- **C7** (counterexample).  A chunk with similarity score 0.1 appearing in
both the similarity and the master-index streams gets fused score
`0.1 + 0.3 = 0.4`, while the same chunk appearing in the master-index
stream alone gets the base score 0.7, so "both streams" is *not* strictly
higher than "one stream alone". -/
theorem C7_master_base_beats_small_boosted :
    fusedScore (combineSearchResults [probeChunk] [probeChunk] []) probeChunk.id =
      some 0.4 ∧
    fusedScore (combineSearchResults [probeChunk] [] []) probeChunk.id = some 0.7 ∧
    ¬ ((0.4 : ℚ) > 0.7) := by
  refine ⟨?_, ?_, by norm_num⟩ <;>
    norm_num [fusedScore, combineSearchResults, mapSet, mapBoost, stableSortBy, insertBy,
      probeChunk, List.find?]

/-- **C7** (corrected).  A chunk in both the similarity and master-index
streams scores its similarity score plus 0.3 — strictly higher than in the
similarity stream alone; compared with the master-index stream alone
(fixed base 0.7) it is higher exactly when its similarity score exceeds
0.4. -/
theorem C7_amended_fusion_boosts (c : ResultChunk) :
    fusedScore (combineSearchResults [c] [c] []) c.id = some (c.score + 0.3) ∧
    fusedScore (combineSearchResults [] [c] []) c.id = some c.score ∧
    fusedScore (combineSearchResults [c] [] []) c.id = some 0.7 ∧
    c.score + 0.3 > c.score ∧
    (c.score + 0.3 > 0.7 ↔ c.score > 0.4) := by
  refine ⟨?_, ?_, ?_, by norm_num, by constructor <;> intro h <;> linarith⟩ <;>
    simp [fusedScore, combineSearchResults, mapSet, mapBoost, stableSortBy, insertBy,
      List.find?]

/-! ## Stream-failure confinement in `POST /ask` -/

/-- **C1** (counterexample).  With the master-index stream successfully
returning a row and the theme stream empty, an embedding-provider failure in
the similarity stream makes the whole query fail (the master-index results
are discarded), contradicting "the whole query fails only if all three
streams fail". -/
theorem C1_vector_failure_aborts_query :
    MasterIndexService.search termDbOk bookDbOk qaJoy = [masterRowChunk] ∧
    router_ask termDbOk bookDbOk qaJoy (.error "embedding provider unavailable") 800000 =
      .error "Vector search failed: embedding provider unavailable" := by
  constructor
  · norm_num [MasterIndexService.search, MasterIndexService.searchByTerm,
      MasterIndexService.searchByBook, MasterIndexService.deduplicateResults,
      MasterIndexService.deduplicateResults.go, MasterIndexService.sortByImportance,
      stableSortBy, insertBy, termDbOk, bookDbOk, qaJoy]
  · rfl

/-- **C1** (corrected).  Failures inside the master-index streams are
confined (a failed term lookup contributes zero results), but a
similarity-stream failure is not: `Promise.all` rejects with the re-thrown
`Vector search failed: …` error and the whole query fails regardless of the
other streams; the query succeeds exactly when the vector stream
succeeds. -/
theorem C1_amended_stream_failure_semantics (db : TermDb) (bookDb : BookDb)
    (qa : QueryAnalysis) (rows : List ResultChunk) (maxT : Nat) :
    router_ask db bookDb qa (.ok rows) maxT =
      .ok (selectBestChunks
        (combineSearchResults (MasterIndexService.search db bookDb qa) rows
          (MasterIndexService.searchByThemes db qa.themes)) maxT) ∧
    (∀ e, router_ask db bookDb qa (.error e) maxT =
      .error ("Vector search failed: " ++ e)) ∧
    (∀ term ty e, db term ty = .error e → MasterIndexService.searchByTerm db term ty = []) := by
  refine ⟨rfl, fun e => rfl, fun term ty e h => ?_⟩
  simp [MasterIndexService.searchByTerm, h]

/-- Witness for `C1_amended_stream_failure_semantics` at concrete inputs. -/
theorem C1_amended_stream_failure_semantics_witness :
    router_ask termDbOk bookDbOk qaJoy (.ok []) 800000 =
      .ok (selectBestChunks
        (combineSearchResults (MasterIndexService.search termDbOk bookDbOk qaJoy) []
          (MasterIndexService.searchByThemes termDbOk qaJoy.themes)) 800000) ∧
    MasterIndexService.searchByTerm (fun _ _ => .error "db down") "joie" (some "theme") = [] :=
  ⟨(C1_amended_stream_failure_semantics termDbOk bookDbOk qaJoy [] 800000).1,
    (C1_amended_stream_failure_semantics (fun _ _ => .error "db down") bookDbOk qaJoy
      [] 800000).2.2 "joie" (some "theme") "db down" rfl⟩

/-! ## Master index builder -/

namespace MasterIndexService

/-- **C5** (confirmed).  The importance score equals
`0.7·min(f/10, 1) + 0.3·min(d/5, 1)`, lies in `[0, 1]`, and a term occurring
10 times across 5 documents outscores a term occurring 20 times in a single
document. -/
theorem C5_importance_score_formula (f d : Nat) :
    (calculateImportanceScore f d =
        0.7 * min ((f : ℚ) / 10) 1 + 0.3 * min ((d : ℚ) / 5) 1 ∧
      0 ≤ calculateImportanceScore f d ∧ calculateImportanceScore f d ≤ 1) ∧
    calculateImportanceScore 20 1 < calculateImportanceScore 10 5 := by
  have h1 : 0 ≤ min ((f : ℚ) / 10) 1 := le_min (by positivity) (by norm_num)
  have h2 : min ((f : ℚ) / 10) 1 ≤ 1 := min_le_right _ _
  have h3 : 0 ≤ min ((d : ℚ) / 5) 1 := le_min (by positivity) (by norm_num)
  have h4 : min ((d : ℚ) / 5) 1 ≤ 1 := min_le_right _ _
  refine ⟨⟨?_, ?_, ?_⟩, ?_⟩
  · simp only [calculateImportanceScore]; norm_num; ring
  · simp only [calculateImportanceScore]; nlinarith
  · simp only [calculateImportanceScore]; nlinarith
  · norm_num [calculateImportanceScore]

/-- The described upsert preserves key-distinctness: an update rewrites a
row in place with the same key, an insert appends a key that was not
present. -/
theorem upsertEntry_keysDistinct {t : List IndexEntry} (e : IndexEntry)
    (h : KeysDistinct t) : KeysDistinct (upsertEntry t e) := by
  unfold upsertEntry
  split
  · have hkey : ∀ x : IndexEntry,
        entryKey (if x.key_term = e.key_term ∧ x.index_type = e.index_type then e else x) =
          entryKey x := by
      intro x
      split
      · rename_i hx
        simp [entryKey, hx.1, hx.2]
      · rfl
    rw [KeysDistinct, List.pairwise_map]
    exact h.imp (by intro a b hab; rw [hkey a, hkey b]; exact hab)
  · rename_i hany
    rw [KeysDistinct, List.pairwise_append]
    refine ⟨h, List.pairwise_singleton _ _, ?_⟩
    intro a ha b hb
    simp only [List.mem_singleton] at hb
    subst hb
    simp only [List.any_eq_true, not_exists, not_and] at hany
    intro hcontra
    have := hany a ha
    simp only [entryKey, Prod.mk.injEq] at hcontra
    simp [hcontra.1, hcontra.2] at this

/-- Under the intended upsert semantics, the run never fails and folds the
entries over the empty table. -/
theorem runOps_intended_snd :
    ∀ (es : List IndexEntry) (t : List IndexEntry),
      (runOps intendedSchema (es.map MasterIndexOp.insertEntry) t).2 =
        .ok (es.foldl upsertEntry t) := by
  intro es
  induction es with
  | nil => intro t; rfl
  | cons e es ih =>
    intro t
    simp only [List.map_cons, List.foldl_cons, runOps, applyOp, addIndexEntry,
      intendedSchema, if_true]
    exact ih (upsertEntry t e)

/-- **C6** (code_bug).  The claim matches the intent of `addIndexEntry`'s
`ON CONFLICT (key_term, index_type) DO UPDATE`, but the schema cannot
execute it: against `createTablesSchema` (no unique index on the pair) the
very first insert is rejected and the rebuild aborts — on the concrete
chunk row `joyChunkRow`, which yields a nonempty entry list, the rebuild
errors instead of producing a table.  Under the upsert semantics the
statement *describes* (`intendedSchema`), the rebuild would indeed be
deterministic — independent of the prior index state, scores included —
and duplicate-free per `(key_term, index_type)`, so the claim is right and
the missing unique index is the bug. -/
theorem C6_rebuild_insert_rejected (t₁ t₂ : List IndexEntry) (chunks : List ChunkRow) :
    (buildIndexFromChunks createTablesSchema [] [joyChunkRow] =
        .error onConflictError ∧
      indexEntries [joyChunkRow] ≠ []) ∧
    buildIndexFromChunks intendedSchema t₁ chunks =
      .ok ((indexEntries chunks).foldl upsertEntry []) ∧
    buildIndexFromChunks intendedSchema t₁ chunks =
      buildIndexFromChunks intendedSchema t₂ chunks ∧
    KeysDistinct ((indexEntries chunks).foldl upsertEntry []) := by
  have hok : ∀ (t : List IndexEntry),
      buildIndexFromChunks intendedSchema t chunks =
        .ok ((indexEntries chunks).foldl upsertEntry []) := by
    intro t
    show (runOps intendedSchema (.clearIndex :: (indexEntries chunks).map .insertEntry)
        t).2 = _
    simp only [runOps, applyOp]
    exact runOps_intended_snd (indexEntries chunks) []
  refine ⟨⟨rfl, by decide⟩, hok t₁, by rw [hok t₁, hok t₂], ?_⟩
  have key : ∀ (es : List IndexEntry) (t : List IndexEntry), KeysDistinct t →
      KeysDistinct (es.foldl upsertEntry t) := by
    intro es
    induction es with
    | nil => intro t h; exact h
    | cons e es ih => intro t h; exact ih _ (upsertEntry_keysDistinct e h)
  exact key _ [] List.Pairwise.nil

/-- **C4** (counterexample).  Rebuilding over a nonempty prior index:
immediately after the opening `DELETE FROM master_index` a concurrent
reader sees an *empty* index, and — because the shipped schema has no
unique index to support the `ON CONFLICT` insert — the rebuild then aborts
on its first insert, leaving the empty index in place.  The visible state
sequence is exactly `[[staleEntry], []]`, refuting "at no point during or
after an interrupted rebuild is an empty or partially-populated index
visible". -/
theorem C4_empty_index_visible_mid_rebuild :
    buildIndexStates createTablesSchema [staleEntry] [joyChunkRow] = [[staleEntry], []] ∧
    buildIndexFromChunks createTablesSchema [staleEntry] [joyChunkRow] =
      .error onConflictError ∧
    ([staleEntry] : List IndexEntry) ≠ [] := by
  refine ⟨rfl, rfl, by simp⟩

/-- **C4** (corrected).  The rebuild clears the previous index *first*,
with no transaction, so the empty index is always the second visible
state; the inserts then all fail against the shipped schema (no unique
arbiter index for `ON CONFLICT`), so the run aborts at the first entry —
the visible states are exactly the old index followed by the empty index,
which remains — and only a chunk set deriving no entries at all
"completes" (with an empty index). -/
theorem C4_amended_clear_first_rebuild (t : List IndexEntry) (chunks : List ChunkRow) :
    buildIndexStates createTablesSchema t chunks = [t, []] ∧
    buildIndexFromChunks createTablesSchema t chunks =
      (match indexEntries chunks with
        | [] => .ok []
        | _ :: _ => .error onConflictError) := by
  constructor
  · show (runOps createTablesSchema
      (.clearIndex :: (indexEntries chunks).map .insertEntry) t).1 = _
    cases h : indexEntries chunks with
    | nil => rfl
    | cons e es => rfl
  · show (runOps createTablesSchema
      (.clearIndex :: (indexEntries chunks).map .insertEntry) t).2 = _
    cases h : indexEntries chunks with
    | nil => rfl
    | cons e es => rfl

end MasterIndexService

/-! ## Semantic chunker -/

namespace SemanticChunker

/-- **C10** (confirmed).  When both AI calls fail, `createChunk` still
returns a chunk (it is total), with empty theme and keyword lists and the
fixed fallback summary `Enseignement de ${sectionTitle}`. -/
theorem C10_createChunk_ai_failure_fallback (ai : AIOracle) (p : CreateChunkParams)
    (e₁ e₂ : String)
    (h1 : ai.analyze p.content p.book_metadata.title = .error e₁)
    (h2 : ai.summarize p.content p.section_title = .error e₂) :
    (createChunk ai p).1.themes = [] ∧ (createChunk ai p).1.keywords = [] ∧
    (createChunk ai p).1.chunk_summary = "Enseignement de " ++ p.section_title := by
  simp [createChunk, analyzeChunkContent, generateChunkSummary, h1, h2]

/-- Witness for `C10_createChunk_ai_failure_fallback` at a concrete failing
oracle and concrete parameters. -/
theorem C10_createChunk_ai_failure_fallback_witness :
    (createChunk aiFail sampleParams).1.themes = [] ∧
    (createChunk aiFail sampleParams).1.keywords = [] ∧
    (createChunk aiFail sampleParams).1.chunk_summary =
      "Enseignement de " ++ sampleParams.section_title :=
  C10_createChunk_ai_failure_fallback aiFail sampleParams "provider timeout"
    "provider timeout" rfl rfl

/-- The in-place mutation loop of `addOverlapBetweenChunks` is a left scan:
each chunk receives from the already-updated chunk before it. -/
theorem addOverlapGo_eq_scanl (cfg : Config) :
    ∀ (rest : List Chunk) (c : Chunk),
      addOverlapGo cfg c rest = rest.scanl (receiveOverlap cfg) c := by
  intro rest
  induction rest with
  | nil => intro c; simp [addOverlapGo, List.scanl]
  | cons d rest ih => intro c; simp [addOverlapGo, List.scanl, ih]

theorem scanl_get?_zero (f : β → α → β) (l : List α) (b : β) :
    (l.scanl f b).get? 0 = some b := by
  cases l <;> rfl

theorem scanl_get?_succ (f : β → α → β) :
    ∀ (l : List α) (b : β) (i : Nat) (x : β) (y : α),
      (l.scanl f b).get? i = some x → l.get? i = some y →
      (l.scanl f b).get? (i + 1) = some (f x y) := by
  intro l
  induction l with
  | nil =>
    intro b i x y _ hy
    simp at hy
  | cons a l ih =>
    intro b i x y hx hy
    rw [List.scanl_cons, List.singleton_append] at hx ⊢
    match i with
    | 0 =>
      simp only [List.get?] at hx hy
      rw [Option.some_inj] at hx hy
      subst hx; subst hy
      simp only [List.get?]
      exact scanl_get?_zero f l (f b a)
    | Nat.succ j =>
      simp only [List.get?] at hx hy ⊢
      exact ih (f b a) j x y hx hy

/-- **C9** (corrected).  At the default configuration — where the integer
and float computations of the overlap window provably coincide
(`⌊10000·0.15⌋ = 1500` in both) — overlap is a word-level invariant, not a
character-level one: the first chunk is unchanged, and chunk `i+1` of the
output is chunk `i+1` of the input with the trailing overlap *words* of the
final chunk `i` — re-joined with single spaces — prepended and its token
count increased by their number; nothing is prepended when the overlap word
list is empty, and a list of fewer than 2 chunks is returned as is. -/
theorem C9_amended_word_overlap (chunks : List Chunk) :
    (addOverlapBetweenChunks defaultConfig chunks).length = chunks.length ∧
    (chunks.length < 2 → addOverlapBetweenChunks defaultConfig chunks = chunks) ∧
    (addOverlapBetweenChunks defaultConfig chunks).get? 0 = chunks.get? 0 ∧
    (∀ (i : Nat) (prev orig : Chunk),
      (addOverlapBetweenChunks defaultConfig chunks).get? i = some prev →
      chunks.get? (i + 1) = some orig →
      (addOverlapBetweenChunks defaultConfig chunks).get? (i + 1) =
        some (receiveOverlap defaultConfig prev orig)) ∧
    (∀ c d : Chunk, 0 < (overlapWords defaultConfig c.content).length →
      (receiveOverlap defaultConfig c d).content =
          String.intercalate " " (overlapWords defaultConfig c.content) ++ " " ++
            d.content ∧
        (receiveOverlap defaultConfig c d).token_count =
          d.token_count + (overlapWords defaultConfig c.content).length) ∧
    (∀ c d : Chunk, (overlapWords defaultConfig c.content).length = 0 →
      receiveOverlap defaultConfig c d = d) := by
  refine ⟨?_, ?_, ?_, ?_, ?_, ?_⟩
  · cases chunks with
    | nil => rfl
    | cons c rest =>
      show (addOverlapGo defaultConfig c rest).length = _
      rw [addOverlapGo_eq_scanl, List.length_scanl, List.length_cons]
  · intro hlen
    cases chunks with
    | nil => rfl
    | cons c rest =>
      cases rest with
      | nil => rfl
      | cons d rest' => simp only [List.length_cons] at hlen; omega
  · cases chunks with
    | nil => rfl
    | cons c rest =>
      show (addOverlapGo defaultConfig c rest).get? 0 = _
      rw [addOverlapGo_eq_scanl]
      rw [scanl_get?_zero]
      rfl
  · intro i prev orig hprev horig
    cases chunks with
    | nil => simp at horig
    | cons c rest =>
      show (addOverlapGo defaultConfig c rest).get? (i + 1) = _
      have hprev' : (addOverlapGo defaultConfig c rest).get? i = some prev := hprev
      rw [addOverlapGo_eq_scanl] at hprev' ⊢
      have horig' : rest.get? i = some orig := by
        simpa [List.get?] using horig
      exact scanl_get?_succ (receiveOverlap defaultConfig) rest c i prev orig
        hprev' horig'
  · intro c d h
    unfold receiveOverlap
    rw [if_pos h]
    exact ⟨rfl, rfl⟩
  · intro c d h
    unfold receiveOverlap
    rw [if_neg (by omega)]

/-- Witness for `C9_amended_word_overlap` on a concrete two-chunk list. -/
theorem C9_amended_word_overlap_witness :
    (addOverlapBetweenChunks defaultConfig [chunkW1, chunkW2]).get? 1 =
      some (receiveOverlap defaultConfig chunkW1 chunkW2) ∧
    (receiveOverlap defaultConfig chunkW1 chunkW2).content =
      String.intercalate " " (overlapWords defaultConfig chunkW1.content) ++ " " ++
        chunkW2.content ∧
    (addOverlapBetweenChunks defaultConfig [chunkW1, chunkW2]).get? 0 =
      some chunkW1 :=
  ⟨(C9_amended_word_overlap [chunkW1, chunkW2]).2.2.2.1 0 chunkW1 chunkW2
      (by decide) (by decide),
   ((C9_amended_word_overlap [chunkW1, chunkW2]).2.2.2.2.1 chunkW1 chunkW2
      (by decide)).1,
   (C9_amended_word_overlap [chunkW1, chunkW2]).2.2.1⟩

set_option maxRecDepth 40000 in
/-- **C9** (counterexample).  A document whose two chunks are
`"aa bb\n\nzz"` and `p3content` (chunker configured with `CHUNK_SIZE=80`):
the overlap window of chunk 0 spans its interior paragraph separator, so
the prepended text `"aa bb zz "` re-joins the words with single spaces and
*no* nonempty suffix of chunk 0's content reappears character-for-character
at the start of chunk 1. -/
theorem C9_overlap_not_verbatim :
    ((chunkBook cfg80 aiOkEmpty [overlapSection] metaSample).1.map Chunk.content) =
      ["aa bb\n\nzz", "aa bb zz " ++ p3content] ∧
    hasVerbatimOverlap "aa bb\n\nzz" ("aa bb zz " ++ p3content) = false := by decide

theorem jsTrim_eq_empty_iff (s : String) : jsTrim s = "" ↔ ∀ c ∈ s.data, jsIsWs c := by
  unfold jsTrim
  constructor
  · intro h c hc
    have hnil : ((s.data.dropWhile jsIsWs).reverse.dropWhile jsIsWs).reverse = [] := by
      have := congrArg String.data h
      simpa using this
    rw [List.reverse_eq_nil_iff, List.dropWhile_eq_nil_iff] at hnil
    have hdrop : ∀ x ∈ s.data.dropWhile jsIsWs, jsIsWs x := by
      intro x hx
      exact hnil x (List.mem_reverse.mpr hx)
    rcases (List.takeWhile_append_dropWhile (p := jsIsWs) (l := s.data)) ▸ hc with h'
    rcases List.mem_append.mp h' with h1 | h2
    · exact List.mem_takeWhile_imp h1
    · exact hdrop c h2
  · intro h
    have h1 : s.data.dropWhile jsIsWs = [] := by
      rw [List.dropWhile_eq_nil_iff]
      exact h
    rw [h1]
    rfl

theorem jsTrim_ne_empty_of_append (x z : String) (hz : jsTrim z ≠ "") :
    jsTrim (x ++ z) ≠ "" := by
  intro hcontra
  apply hz
  rw [jsTrim_eq_empty_iff] at hcontra ⊢
  intro c hc
  apply hcontra
  rw [String.data_append]
  exact List.mem_append.mpr (Or.inr hc)

theorem ne_empty_of_jsTrim_ne (s : String) (h : jsTrim s ≠ "") : s ≠ "" := by
  intro hs
  rw [hs] at h
  exact h rfl

theorem estimateTokenCount_pos (s : String) (h : s ≠ "") : 1 ≤ estimateTokenCount s := by
  have hd : s.data ≠ [] := fun hnil => h (by cases s; simp at hnil; simp [hnil])
  have : 0 < s.length := by
    rw [String.length]
    exact List.length_pos.mpr hd
  unfold estimateTokenCount
  omega

theorem jsTrim_pos_ne (s : String) (h : 0 < (jsTrim s).length) : jsTrim s ≠ "" := by
  intro hc
  rw [hc] at h
  simp at h

theorem createChunk_token_count (ai : AIOracle) (p : CreateChunkParams) :
    (createChunk ai p).1.token_count =
      if p.token_count = 0 then estimateTokenCount p.content else p.token_count := rfl

theorem flushChunk_inv (ai : AIOracle) (sec : Section) (meta : BookMetadata)
    (si : Nat) {N : Nat} {st : SplitState} (hinv : StInv N st)
    (ht : jsTrim st.currentChunk ≠ "") : StInv N (flushChunk ai sec meta si st) := by
  obtain ⟨hchunks, hcur⟩ := hinv
  rcases hcur with ⟨hc, _⟩ | ⟨_, h1, hN⟩
  · exact absurd (by rw [hc]; rfl) ht
  · refine ⟨?_, Or.inl ⟨rfl, rfl⟩⟩
    intro c hc
    simp only [flushChunk] at hc
    rcases List.mem_append.mp hc with h | h
    · exact hchunks c h
    · simp only [List.mem_singleton] at h
      subst h
      rw [createChunk_token_count]
      simp only
      rw [if_neg (by omega)]
      exact hN

theorem sentenceStep_inv (cfg : Config) (ai : AIOracle) (sec : Section)
    (meta : BookMetadata) (si : Nat) {st : SplitState} (sentence : String)
    (hinv : StInv cfg.chunkSize st)
    (htok : estimateTokenCount sentence ≤ cfg.chunkSize)
    (htrim : jsTrim sentence ≠ "") :
    StInv cfg.chunkSize (sentenceStep cfg ai sec meta si st sentence) := by
  have hpos : 1 ≤ estimateTokenCount sentence :=
    estimateTokenCount_pos sentence (ne_empty_of_jsTrim_ne sentence htrim)
  by_cases hcond : st.currentTokens + estimateTokenCount sentence > cfg.chunkSize ∧
      jsTrim st.currentChunk ≠ ""
  · have hst := flushChunk_inv ai sec meta si hinv hcond.2
    simp only [sentenceStep, if_pos hcond]
    exact ⟨hst.1, Or.inr ⟨htrim, hpos, htok⟩⟩
  · simp only [sentenceStep, if_neg hcond]
    obtain ⟨hchunks, hcur⟩ := hinv
    rcases hcur with ⟨hc, hz⟩ | ⟨htc, h1, hN⟩
    · refine ⟨hchunks, Or.inr ⟨?_, ?_, ?_⟩⟩
      · rw [hc]
        simp only [ne_eq, not_true_eq_false, if_false]
        exact jsTrim_ne_empty_of_append _ _ htrim
      · show 1 ≤ st.currentTokens + estimateTokenCount sentence
        omega
      · show st.currentTokens + estimateTokenCount sentence ≤ cfg.chunkSize
        rw [hz]
        omega
    · have hle : st.currentTokens + estimateTokenCount sentence ≤ cfg.chunkSize := by
        by_contra hgt
        exact hcond ⟨by omega, htc⟩
      refine ⟨hchunks, Or.inr ⟨jsTrim_ne_empty_of_append _ _ htrim, ?_, ?_⟩⟩
      · show 1 ≤ st.currentTokens + estimateTokenCount sentence
        omega
      · show st.currentTokens + estimateTokenCount sentence ≤ cfg.chunkSize
        exact hle

theorem foldl_sentenceStep_inv (cfg : Config) (ai : AIOracle) (sec : Section)
    (meta : BookMetadata) (si : Nat) :
    ∀ (sents : List String) (st : SplitState), StInv cfg.chunkSize st →
      (∀ s ∈ sents, estimateTokenCount s ≤ cfg.chunkSize ∧ jsTrim s ≠ "") →
      StInv cfg.chunkSize (sents.foldl (sentenceStep cfg ai sec meta si) st) := by
  intro sents
  induction sents with
  | nil => intro st h _; exact h
  | cons s sents ih =>
    intro st h hall
    rw [List.foldl_cons]
    exact ih _
      (sentenceStep_inv cfg ai sec meta si s h (hall s (by simp)).1 (hall s (by simp)).2)
      (fun x hx => hall x (by simp [hx]))

theorem paragraphStep_inv (cfg : Config) (ai : AIOracle) (sec : Section)
    (meta : BookMetadata) (si : Nat) {st : SplitState} (paragraph : String)
    (hinv : StInv cfg.chunkSize st)
    (htrim : jsTrim paragraph ≠ "")
    (hsent : ∀ s ∈ splitIntoSentences paragraph,
      estimateTokenCount s ≤ cfg.chunkSize) :
    StInv cfg.chunkSize (paragraphStep cfg ai sec meta si st paragraph) := by
  have hpos : 1 ≤ estimateTokenCount paragraph :=
    estimateTokenCount_pos paragraph (ne_empty_of_jsTrim_ne paragraph htrim)
  by_cases hbig : estimateTokenCount paragraph > cfg.chunkSize
  · simp only [paragraphStep, if_pos hbig]
    have hst1 : StInv cfg.chunkSize
        (if jsTrim st.currentChunk ≠ "" then flushChunk ai sec meta si st else st) := by
      split
      · rename_i hne
        exact flushChunk_inv ai sec meta si hinv hne
      · exact hinv
    refine foldl_sentenceStep_inv cfg ai sec meta si _ _ hst1 ?_
    intro s hs
    refine ⟨hsent s hs, ?_⟩
    have := List.of_mem_filter hs
    exact jsTrim_pos_ne s (by simpa using this)
  · simp only [paragraphStep, if_neg hbig]
    have hple : estimateTokenCount paragraph ≤ cfg.chunkSize := by omega
    by_cases hcond : st.currentTokens + estimateTokenCount paragraph > cfg.chunkSize ∧
        jsTrim st.currentChunk ≠ ""
    · have hst := flushChunk_inv ai sec meta si hinv hcond.2
      rw [if_pos hcond]
      exact ⟨hst.1, Or.inr ⟨htrim, hpos, hple⟩⟩
    · rw [if_neg hcond]
      obtain ⟨hchunks, hcur⟩ := hinv
      rcases hcur with ⟨hc, hz⟩ | ⟨htc, h1, hN⟩
      · refine ⟨hchunks, Or.inr ⟨?_, ?_, ?_⟩⟩
        · rw [hc]
          simp only [ne_eq, not_true_eq_false, if_false]
          exact jsTrim_ne_empty_of_append _ _ htrim
        · show 1 ≤ st.currentTokens + estimateTokenCount paragraph
          omega
        · show st.currentTokens + estimateTokenCount paragraph ≤ cfg.chunkSize
          rw [hz]
          omega
      · have hle : st.currentTokens + estimateTokenCount paragraph ≤ cfg.chunkSize := by
          by_contra hgt
          exact hcond ⟨by omega, htc⟩
        refine ⟨hchunks, Or.inr ⟨jsTrim_ne_empty_of_append _ _ htrim, ?_, ?_⟩⟩
        · show 1 ≤ st.currentTokens + estimateTokenCount paragraph
          omega
        · show st.currentTokens + estimateTokenCount paragraph ≤ cfg.chunkSize
          exact hle

theorem intelligentSplit_bound (cfg : Config) (ai : AIOracle) (fullText : String)
    (sec : Section) (meta : BookMetadata) (si : Nat)
    (hsent : ∀ p ∈ splitIntoParagraphs fullText,
      ∀ s ∈ splitIntoSentences p, estimateTokenCount s ≤ cfg.chunkSize) :
    ∀ c ∈ (intelligentSplit cfg ai fullText sec meta si).1,
      c.token_count ≤ cfg.chunkSize := by
  have hfold : ∀ (ps : List String) (st : SplitState), StInv cfg.chunkSize st →
      (∀ p ∈ ps, jsTrim p ≠ "" ∧
        ∀ s ∈ splitIntoSentences p, estimateTokenCount s ≤ cfg.chunkSize) →
      StInv cfg.chunkSize (ps.foldl (paragraphStep cfg ai sec meta si) st) := by
    intro ps
    induction ps with
    | nil => intro st h _; exact h
    | cons p ps ih =>
      intro st h hall
      rw [List.foldl_cons]
      exact ih _
        (paragraphStep_inv cfg ai sec meta si p h (hall p (by simp)).1 (hall p (by simp)).2)
        (fun x hx => hall x (by simp [hx]))
  have hst : StInv cfg.chunkSize
      ((splitIntoParagraphs fullText).foldl (paragraphStep cfg ai sec meta si)
        ⟨[], [], "", 0, 0⟩) := by
    refine hfold _ _ ⟨by simp, Or.inl ⟨rfl, rfl⟩⟩ ?_
    intro p hp
    refine ⟨?_, hsent p hp⟩
    have := List.of_mem_filter hp
    exact jsTrim_pos_ne p (by simpa using this)
  intro c hc
  unfold intelligentSplit at hc
  simp only at hc
  split at hc
  · rename_i hne
    have hfin := flushChunk_inv ai sec meta si hst hne
    exact hfin.1 c hc
  · exact hst.1 c hc

theorem chunkSection_bound (cfg : Config) (ai : AIOracle) (sec : Section)
    (meta : BookMetadata) (si : Nat)
    (hsent : ∀ p ∈ splitIntoParagraphs (combineTexts sec.hebrew_text sec.english_text),
      ∀ s ∈ splitIntoSentences p, estimateTokenCount s ≤ cfg.chunkSize) :
    ∀ c ∈ (chunkSection cfg ai sec meta si).1, c.token_count ≤ cfg.chunkSize := by
  intro c hc
  simp only [chunkSection] at hc
  split at hc
  · simp at hc
  · split at hc
    · rename_i hfit
      simp only [List.mem_singleton] at hc
      subst hc
      rw [createChunk_token_count]
      simp only
      split <;> omega
    · exact intelligentSplit_bound cfg ai _ sec meta si hsent c hc

theorem snd_mem_of_mem_enumFrom :
    ∀ (l : List α) (n : Nat) (p : Nat × α), p ∈ l.enumFrom n → p.2 ∈ l := by
  intro l
  induction l with
  | nil => intro n p h; simp [List.enumFrom] at h
  | cons a l ih =>
    intro n p h
    rw [List.enumFrom] at h
    rcases List.mem_cons.mp h with h1 | h2
    · subst h1; simp
    · exact List.mem_cons.mpr (Or.inr (ih (n + 1) p h2))

theorem snd_mem_of_mem_enum (l : List α) (p : Nat × α) (h : p ∈ l.enum) : p.2 ∈ l :=
  snd_mem_of_mem_enumFrom l 0 p h

theorem foldl_bookStep_bound (cfg : Config) (ai : AIOracle) (meta : BookMetadata)
    (total : Nat) :
    ∀ (ps : List (Nat × Section)) (acc : List Chunk × List Log),
      (∀ c ∈ acc.1, c.token_count ≤ cfg.chunkSize) →
      (∀ p ∈ ps, ∀ c ∈ (chunkSection cfg ai p.2 meta p.1).1,
        c.token_count ≤ cfg.chunkSize) →
      ∀ c ∈ (ps.foldl (bookStep cfg ai meta total) acc).1,
        c.token_count ≤ cfg.chunkSize := by
  intro ps
  induction ps with
  | nil => intro acc hacc _; exact hacc
  | cons p ps ih =>
    intro acc hacc hall
    rw [List.foldl_cons]
    refine ih _ ?_ (fun x hx => hall x (by simp [hx]))
    intro c hc
    simp only [bookStep] at hc
    rcases List.mem_append.mp hc with h | h
    · exact hacc c h
    · exact hall p (by simp) c h

theorem overlapWords_length_le (cfg : Config) (content : String)
    (hK : cfg.chunkSize * cfg.overlapPercentage / 100 / 4 ≠ 0) :
    (overlapWords cfg content).length ≤
      cfg.chunkSize * cfg.overlapPercentage / 100 / 4 := by
  unfold overlapWords jsSliceNeg
  simp only
  rw [if_neg hK]
  rw [List.length_drop]
  omega

theorem receiveOverlap_bound (cfg : Config) (c d : Chunk) {N : Nat}
    (hd : d.token_count ≤ N)
    (hK : cfg.chunkSize * cfg.overlapPercentage / 100 / 4 ≠ 0) :
    (receiveOverlap cfg c d).token_count ≤
      N + cfg.chunkSize * cfg.overlapPercentage / 100 / 4 := by
  simp only [receiveOverlap]
  have := overlapWords_length_le cfg c.content hK
  split
  · simp only
    omega
  · omega

theorem addOverlapGo_bound (cfg : Config) {N : Nat}
    (hK : cfg.chunkSize * cfg.overlapPercentage / 100 / 4 ≠ 0) :
    ∀ (rest : List Chunk) (c : Chunk),
      c.token_count ≤ N + cfg.chunkSize * cfg.overlapPercentage / 100 / 4 →
      (∀ x ∈ rest, x.token_count ≤ N) →
      ∀ y ∈ addOverlapGo cfg c rest,
        y.token_count ≤ N + cfg.chunkSize * cfg.overlapPercentage / 100 / 4 := by
  intro rest
  induction rest with
  | nil =>
    intro c hcb _ y hy
    simp only [addOverlapGo, List.mem_singleton] at hy
    subst hy; exact hcb
  | cons d rest ih =>
    intro c hcb hrest y hy
    simp only [addOverlapGo] at hy
    rcases List.mem_cons.mp hy with h | h
    · subst h; exact hcb
    · refine ih (receiveOverlap cfg c d) ?_ (fun x hx => hrest x (by simp [hx])) y h
      exact receiveOverlap_bound cfg c d (hrest d (by simp)) hK

theorem addOverlapBetweenChunks_bound (cfg : Config) {N : Nat}
    (hK : cfg.chunkSize * cfg.overlapPercentage / 100 / 4 ≠ 0)
    (chunks : List Chunk) (h : ∀ x ∈ chunks, x.token_count ≤ N) :
    ∀ y ∈ addOverlapBetweenChunks cfg chunks,
      y.token_count ≤ N + cfg.chunkSize * cfg.overlapPercentage / 100 / 4 := by
  cases chunks with
  | nil => intro y hy; simp [addOverlapBetweenChunks] at hy
  | cons c rest =>
    exact addOverlapGo_bound cfg hK rest c
      (Nat.le_trans (h c (by simp)) (Nat.le_add_right _ _))
      (fun x hx => h x (by simp [hx]))

/-- **C8** (corrected).  For every configuration whose overlap word window
`K = ⌊⌊chunkSize·pct/100⌋/4⌋` is nonzero (zero triggers the `slice(-0)`
whole-chunk prepend) and fits the 20% tolerance (`5·(chunkSize+K) ≤
6·chunkSize`) — the default 10000-token / 15% configuration satisfies both,
with `K = 375` — if no single sentence of any paragraph of any section
exceeds the target, then every produced chunk's recorded token count stays
within `target_size * 1.2` (stated integrally:
`5 * token_count ≤ 6 * target`): each chunk is at most `target` before
overlap and receives at most `K` overlap tokens. -/
theorem C8_amended_token_bound (cfg : Config)
    (hK0 : cfg.chunkSize * cfg.overlapPercentage / 100 / 4 ≠ 0)
    (hK5 : 5 * (cfg.chunkSize + cfg.chunkSize * cfg.overlapPercentage / 100 / 4) ≤
      6 * cfg.chunkSize)
    (ai : AIOracle) (sections : List Section) (meta : BookMetadata)
    (hs : ∀ sec ∈ sections,
      ∀ p ∈ splitIntoParagraphs (combineTexts sec.hebrew_text sec.english_text),
        ∀ s ∈ splitIntoSentences p, estimateTokenCount s ≤ cfg.chunkSize) :
    ∀ c ∈ (chunkBook cfg ai sections meta).1,
      5 * c.token_count ≤ 6 * cfg.chunkSize := by
  intro c hc
  have hpre : ∀ x ∈ (sections.enum.foldl
      (bookStep cfg ai meta sections.length)
      ([], [⟨.info, "📚 Starting semantic chunking for " ++ meta.title⟩])).1,
      x.token_count ≤ cfg.chunkSize := by
    refine foldl_bookStep_bound cfg ai meta sections.length _ _ (by simp) ?_
    intro p hp
    exact chunkSection_bound cfg ai p.2 meta p.1
      (hs p.2 (snd_mem_of_mem_enum sections p hp))
  have hb := addOverlapBetweenChunks_bound cfg hK0 _ hpre c hc
  omega

set_option maxRecDepth 40000 in
/-- Witness for `C8_amended_token_bound` at the default configuration on a
concrete three-paragraph document. -/
theorem C8_amended_token_bound_witness :
    defaultConfig.chunkSize * defaultConfig.overlapPercentage / 100 / 4 ≠ 0 ∧
    5 * (defaultConfig.chunkSize +
      defaultConfig.chunkSize * defaultConfig.overlapPercentage / 100 / 4) ≤
      6 * defaultConfig.chunkSize ∧
    (∀ sec ∈ [overlapSection],
      ∀ p ∈ splitIntoParagraphs (combineTexts sec.hebrew_text sec.english_text),
        ∀ s ∈ splitIntoSentences p, estimateTokenCount s ≤ defaultConfig.chunkSize) ∧
    (∀ c ∈ (chunkBook defaultConfig aiOkEmpty [overlapSection] metaSample).1,
      5 * c.token_count ≤ 6 * defaultConfig.chunkSize) :=
  ⟨by decide, by decide, by decide,
    C8_amended_token_bound defaultConfig (by decide) (by decide) aiOkEmpty
      [overlapSection] metaSample (by decide)⟩

set_option maxRecDepth 40000 in
/-- **C8** (counterexample).  Two failures of the claim as stated.
(1) Bound: with `CHUNK_SIZE=20`, the document `sec20` has no sentence over
the 20-token budget (both sentences fit, as the third conjunct checks), yet
the second chunk ends with 42 recorded tokens, `5·42 > 6·20`, i.e. beyond
`target·1.2`: the overlap window `⌊⌊20·0.15⌋/4⌋` is `0` and JS
`slice(-0)` prepends the donor's *entire* 40-word content.
(2) Logging: with `CHUNK_SIZE=8`, a 40-character indivisible sentence
(10 tokens, `5·10 > 6·8`) produces an over-tolerance chunk — the claim's
exception case — and the run emits *no* warning log at all, so the
overflow is not logged. -/
theorem C8_overflow_not_logged :
    (((chunkBook cfg20 aiOkEmpty [sec20] metaSample).1.map Chunk.token_count =
        [20, 42] ∧
      5 * 42 > 6 * cfg20.chunkSize) ∧
      (∀ p ∈ splitIntoParagraphs (combineTexts sec20.hebrew_text sec20.english_text),
        ∀ s ∈ splitIntoSentences p, estimateTokenCount s ≤ cfg20.chunkSize)) ∧
    ((chunkBook cfg8 aiOkEmpty [hugeSentenceSection] metaSample).1.map
        Chunk.token_count = [10] ∧
      5 * 10 > 6 * cfg8.chunkSize ∧
      splitIntoSentences hugeSentence = [hugeSentence] ∧
      estimateTokenCount hugeSentence > cfg8.chunkSize ∧
      (chunkBook cfg8 aiOkEmpty [hugeSentenceSection] metaSample).2.all
        (fun l => l.level ≠ LogLevel.warn) = true) := by decide

end SemanticChunker

end RNVA
